import Mathlib

/-!
Verification development for the progress-reporting layer of the leeway
build tool (`pkg/leeway/reporter.go`).

The Go source is shallowly embedded: the `ConsoleReporter` becomes a pure
state-transition system (registry state in, registry state and emitted
bytes out), the `CompositeReporter` becomes a fold over an abstract
reporter record, and the lock usage of each method is embedded as a trace
of atomic lock/map actions.  External collaborators (gookit/color ANSI
rendering, textio's line-prefixing writer) are modelled from their
documented behaviour, since their sources are not part of this repository.
-/

namespace Leeway

/-- ANSI escape introducer used by the colour model. -/
def esc : String := "\x1b"

/-- Model of gookit/color: green foreground escape sequence. -/
def greenSeq : String := esc ++ "[32m"

/-- Model of gookit/color: yellow foreground escape sequence. -/
def yellowSeq : String := esc ++ "[33m"

/-- Model of gookit/color: gray foreground escape sequence. -/
def graySeq : String := esc ++ "[90m"

/-- Model of gookit/color: red foreground escape sequence. -/
def redSeq : String := esc ++ "[31m"

/-- Model of gookit/color: white foreground escape sequence. -/
def whiteSeq : String := esc ++ "[97m"

/-- Model of gookit/color: style reset sequence. -/
def resetSeq : String := esc ++ "[0m"

/-- Model of `color.Green.Sprint`. -/
def greenSprint (s : String) : String := greenSeq ++ s ++ resetSeq

/-- Model of `color.Yellow.Sprint`. -/
def yellowSprint (s : String) : String := yellowSeq ++ s ++ resetSeq

/-- Model of `color.Gray.Sprintf`/`color.Gray.Render`. -/
def grayRender (s : String) : String := graySeq ++ s ++ resetSeq

/-- A build unit (`*Package` in the source): a stable full name and a
fallible version lookup (`none` models `Version()` returning an error). -/
structure Package where
  fullName : String
  version : Option String
deriving DecidableEq, Repr

/-- `PackageBuildStatus`: `packageBuilt` is the source's `PackageBuilt`
("already satisfied from cache"); `packageNotBuiltYet` covers the other
branch of `BuildStarted`'s `if status == PackageBuilt`. -/
inductive PackageBuildStatus where
  | packageBuilt
  | packageNotBuiltYet
deriving DecidableEq, Repr

/-- The version string a renderer uses: the looked-up version, or the
literal `"unknown"` when `Version()` fails (mirrors
`version, err := pkg.Version(); if err != nil { version = "unknown" }`). -/
def versionOrUnknown (pkg : Package) : String :=
  match pkg.version with
  | some v => v
  | none => "unknown"

/-- Mirrors `getRunPrefix`:
`color.Gray.Render(fmt.Sprintf("[%s] ", p.FullName()))`. -/
def getRunPrefix (p : Package) : String :=
  grayRender ("[" ++ p.fullName ++ "] ")

/-! ### Line splitting, modelling textio's prefix writer

`textio.NewPrefixWriter(os.Stdout, prefix)` buffers written bytes,
emitting `prefix ++ line ++ "\n"` to the underlying stream for every
completed line and holding the trailing incomplete line back. -/

/-- Split a byte stream into its completed lines (newline-terminated,
returned without the newline) and the trailing incomplete remainder. -/
def splitLines : List Char → List (List Char) × List Char
  | [] => ([], [])
  | c :: rest =>
    let r := splitLines rest
    if c = '\n' then ([] :: r.1, r.2)
    else
      match r.1 with
      | [] => ([], c :: r.2)
      | l :: ls => ((c :: l) :: ls, r.2)

/-- Reassemble completed lines, newline-terminating each. -/
def joinLines (ls : List (List Char)) : List Char :=
  (ls.map (fun l => l ++ ['\n'])).flatten

/-- The bytes a prefix writer emits for a batch of completed lines. -/
def emitLines (pfx : String) (ls : List (List Char)) : List Char :=
  (ls.map (fun l => pfx.data ++ l ++ ['\n'])).flatten

/-- Model of a `textio.PrefixWriter` over `os.Stdout`: its fixed line
prefix and the buffered trailing incomplete line. -/
structure Sink where
  pfx : String
  pending : List Char
deriving DecidableEq, Repr

/-- One `Write` call on a prefix writer: completed lines of
`pending ++ buf` are emitted with the prefix, the remainder is buffered. -/
def sinkWrite (s : Sink) (buf : List Char) : Sink × List Char :=
  let r := splitLines (s.pending ++ buf)
  (⟨s.pfx, r.2⟩, emitLines s.pfx r.1)

/-! ### The writer registry (Go `map[string]io.Writer`) -/

/-- Registry lookup (`out, ok := r.writer[nme]`). -/
def mapLookup (k : String) : List (String × Sink) → Option Sink
  | [] => none
  | (k', v) :: rest => if k' = k then some v else mapLookup k rest

/-- Registry removal (`delete(r.writer, nme)`). -/
def mapErase (k : String) (m : List (String × Sink)) : List (String × Sink) :=
  m.filter (fun e => e.1 ≠ k)

/-- Registry insertion (`r.writer[nme] = out`): replaces any entry with
the same key, as Go map assignment does. -/
def mapInsert (k : String) (v : Sink) (m : List (String × Sink)) : List (String × Sink) :=
  (k, v) :: mapErase k m

/-- The `ConsoleReporter`'s mutable state: the writer registry. -/
structure ConsoleReporter where
  writer : List (String × Sink)
deriving DecidableEq, Repr

/-! ### ConsoleReporter operations

Each operation maps (registry state, arguments) to (new registry state,
bytes emitted to stdout), mirroring the corresponding Go method.  An
`error` argument is modelled as `Option String` (`some e` = non-nil error
rendering as `e`). -/

/-- Mirrors the line rendering in `ConsoleReporter.BuildStarted`:
`fmt.Sprintf("%s\t%s\t%s\n", tag, pkg.FullName(), gray("(version v)"))`
where the tag is `color.Green.Sprint("📦\tcached")` for `PackageBuilt`
and `color.Yellow.Sprint("🔧\tbuild")` otherwise. -/
def buildStartedLine (pkg : Package) (status : PackageBuildStatus) : String :=
  let version := versionOrUnknown pkg
  match status with
  | .packageBuilt =>
      greenSprint ("📦\tcached") ++ "\t" ++ pkg.fullName ++ "\t" ++
        grayRender ("(version " ++ version ++ ")") ++ "\n"
  | .packageNotBuiltYet =>
      yellowSprint ("🔧\tbuild") ++ "\t" ++ pkg.fullName ++ "\t" ++
        grayRender ("(version " ++ version ++ ")") ++ "\n"

/-- Mirrors `ConsoleReporter.BuildStarted` up to the write: one rendered
line per entry of the status map (modelled as an association list, whose
order stands for Go's arbitrary map iteration order), sorted by
`sort.Slice(lines, func(i, j int) bool { return lines[i] < lines[j] })`. -/
def buildStartedLines (status : List (Package × PackageBuildStatus)) : List String :=
  List.insertionSort (· ≤ ·) (status.map (fun e => buildStartedLine e.1 e.2))

/-- The batched write of `BuildStarted`:
`fmt.Fprintln(tw, strings.Join(lines, ""))` (the tabwriter's column
expansion, which maps lines one-to-one, is not modelled). -/
def buildStartedOutput (status : List (Package × PackageBuildStatus)) : String :=
  String.join (buildStartedLines status) ++ "\n"

/-- Mirrors `ConsoleReporter.BuildFinished`'s rendered text:
`color.Printf("<red>build failed</>\n<white>Reason:</> %s\n", err)` on
error, `color.Println("\n<green>build succeded</>")` on success (the
source spells the word without the second "e"). -/
def buildFinishedMsg (err : Option String) : String :=
  match err with
  | some e =>
      redSeq ++ "build failed" ++ resetSeq ++ "\n" ++
        whiteSeq ++ "Reason:" ++ resetSeq ++ " " ++ e ++ "\n"
  | none => "\n" ++ greenSeq ++ "build succeded" ++ resetSeq ++ "\n"

/-- The "build started (version v)" line of `PackageBuildStarted`:
`color.Sprintf("<fg=yellow>build started</> <gray>(version %s)</>\n", version)`. -/
def packageBuildStartedMsg (version : String) : String :=
  yellowSeq ++ "build started" ++ resetSeq ++ " " ++
    graySeq ++ "(version " ++ version ++ ")" ++ resetSeq ++ "\n"

/-- Mirrors `ConsoleReporter.PackageBuildStarted`: creates a prefix
writer for the unit, stores it in the registry under the full name, and
writes the started line through it (the registry entry and the local
`out` alias one writer in Go, so the entry reflects the post-write
buffer). -/
def packageBuildStarted (r : ConsoleReporter) (pkg : Package) :
    ConsoleReporter × List Char :=
  let nme := pkg.fullName
  let out : Sink := ⟨ getRunPrefix pkg, []⟩
  let res := sinkWrite out (packageBuildStartedMsg (versionOrUnknown pkg)).data
  (⟨mapInsert nme res.1 r.writer⟩, res.2)

/-- Mirrors `ConsoleReporter.PackageBuildLog`: looks up the unit's
writer; if absent, lazily creates one and stores it; then writes `buf`
through the writer.  `isErr` is accepted and ignored, as in the source. -/
def packageBuildLog (r : ConsoleReporter) (pkg : Package) (isErr : Bool)
    (buf : List Char) : ConsoleReporter × List Char :=
  let _ := isErr
  let nme := pkg.fullName
  match mapLookup nme r.writer with
  | some out =>
      let res := sinkWrite out buf
      (⟨mapInsert nme res.1 r.writer⟩, res.2)
  | none =>
      let out : Sink := ⟨ getRunPrefix pkg, []⟩
      let res := sinkWrite out buf
      (⟨mapInsert nme res.1 r.writer⟩, res.2)

/-- The final summary text of `PackageBuildFinished`:
`color.Render("<green>package build succeded</>\n")` on success (source
spelling), `color.Sprintf("<red>package build failed</>\n<white>Reason:</> %s\n", err)`
on error. -/
def packageBuildFinishedMsg (err : Option String) : String :=
  match err with
  | some e =>
      redSeq ++ "package build failed" ++ resetSeq ++ "\n" ++
        whiteSeq ++ "Reason:" ++ resetSeq ++ " " ++ e ++ "\n"
  | none => greenSeq ++ "package build succeded" ++ resetSeq ++ "\n"

/-- Mirrors `ConsoleReporter.PackageBuildFinished`: writes the summary
through the unit's writer (creating a throwaway one when absent — the
lazily created writer is NOT stored), then `delete(r.writer, nme)`. -/
def packageBuildFinished (r : ConsoleReporter) (pkg : Package)
    (err : Option String) : ConsoleReporter × List Char :=
  let msg := packageBuildFinishedMsg err
  let nme := pkg.fullName
  match mapLookup nme r.writer with
  | some out =>
      let res := sinkWrite out msg.data
      (⟨mapErase nme r.writer⟩, res.2)
  | none =>
      let out : Sink := ⟨ getRunPrefix pkg, []⟩
      let res := sinkWrite out msg.data
      (⟨mapErase nme r.writer⟩, res.2)

/-! ### CompositeReporter

An abstract reporter is a record of the five event handlers over a state
type `σ` (in Go the children share their observable effects through
stdout; threading one state through the children captures the call
order). -/

/-- The `Reporter` interface: the five lifecycle event handlers, each a
transition on an observer state. -/
structure Reporter (σ : Type) where
  buildStarted : σ → Package → List (Package × PackageBuildStatus) → σ
  buildFinished : σ → Package → Option String → σ
  packageBuildStarted : σ → Package → σ
  packageBuildLog : σ → Package → Bool → List Char → σ
  packageBuildFinished : σ → Package → Option String → σ

/-- `CompositeReporter.BuildStarted`: forwards to each child in list
order (`for _, r := range c.Children { r.BuildStarted(pkg, status) }`). -/
def compositeBuildStarted (children : List (Reporter σ)) (s : σ)
    (pkg : Package) (status : List (Package × PackageBuildStatus)) : σ :=
  children.foldl (fun s r => r.buildStarted s pkg status) s

/-- `CompositeReporter.BuildFinished`: forwards to each child in order. -/
def compositeBuildFinished (children : List (Reporter σ)) (s : σ)
    (pkg : Package) (err : Option String) : σ :=
  children.foldl (fun s r => r.buildFinished s pkg err) s

/-- `CompositeReporter.PackageBuildStarted`: forwards to each child in order. -/
def compositePackageBuildStarted (children : List (Reporter σ)) (s : σ)
    (pkg : Package) : σ :=
  children.foldl (fun s r => r.packageBuildStarted s pkg) s

/-- `CompositeReporter.PackageBuildLog`: forwards to each child in order. -/
def compositePackageBuildLog (children : List (Reporter σ)) (s : σ)
    (pkg : Package) (isErr : Bool) (buf : List Char) : σ :=
  children.foldl (fun s r => r.packageBuildLog s pkg isErr buf) s

/-- `CompositeReporter.PackageBuildFinished`: forwards to each child in order. -/
def compositePackageBuildFinished (children : List (Reporter σ)) (s : σ)
    (pkg : Package) (err : Option String) : σ :=
  children.foldl (fun s r => r.packageBuildFinished s pkg err) s

/-! ### Lock-discipline traces

Each `ConsoleReporter` method is also embedded as the sequence of atomic
lock and registry actions it performs, in program order, to state the
reader/writer-lock discipline. -/

/-- An atomic action on the shared registry or its `sync.RWMutex`. -/
inductive Action where
  | lockR
  | unlockR
  | lockW
  | unlockW
  | mapRead (k : String)
  | mapWrite (k : String)
  | mapDelete (k : String)
  | streamWrite
deriving DecidableEq, Repr

/-- Action trace of `PackageBuildStarted` (lines 94–109): create writer,
`mu.Lock()`, store, `mu.Unlock()`, write started line. -/
def packageBuildStartedTrace (nme : String) : List Action :=
  [.lockW, .mapWrite nme, .unlockW, .streamWrite]

/-- Action trace of `PackageBuildLog` (lines 112–127): `mu.RLock()`,
lookup, `mu.RUnlock()`; when absent, `mu.Lock()`, store, `mu.Unlock()`;
then the sink write. -/
def packageBuildLogTrace (nme : String) (present : Bool) : List Action :=
  if present then
    [.lockR, .mapRead nme, .unlockR, .streamWrite]
  else
    [.lockR, .mapRead nme, .unlockR, .lockW, .mapWrite nme, .unlockW, .streamWrite]

/-- Action trace of `PackageBuildFinished` (lines 130–148): `mu.RLock()`,
lookup, `mu.RUnlock()`, write summary, then `delete(r.writer, nme)` —
performed after the read lock was released, with no lock acquired. -/
def packageBuildFinishedTrace (nme : String) : List Action :=
  [.lockR, .mapRead nme, .unlockR, .streamWrite, .mapDelete nme]

/-- Scans a trace with the current write-lock state: `true` iff every
map mutation (`mapWrite`/`mapDelete`) happens while the exclusive lock
is held. -/
def mutationsLocked : Bool → List Action → Bool
  | _, [] => true
  | _, .lockW :: rest => mutationsLocked true rest
  | _, .unlockW :: rest => mutationsLocked false rest
  | w, .mapWrite _ :: rest => w && mutationsLocked w rest
  | w, .mapDelete _ :: rest => w && mutationsLocked w rest
  | w, _ :: rest => mutationsLocked w rest

/-- Scans a trace with (read-lock, write-lock) state: `true` iff every
map lookup happens while at least the shared lock is held. -/
def lookupsLocked : Bool → Bool → List Action → Bool
  | _, w, .lockR :: rest => lookupsLocked true w rest
  | _, w, .unlockR :: rest => lookupsLocked false w rest
  | r, _, .lockW :: rest => lookupsLocked r true rest
  | r, _, .unlockW :: rest => lookupsLocked r false rest
  | r, w, .mapRead _ :: rest => (r || w) && lookupsLocked r w rest
  | r, w, _ :: rest => lookupsLocked r w rest
  | _, _, [] => true

/-! ### Helper lemmas -/

/-- Reassembling the completed lines and appending the pending remainder
recovers the original byte stream: line splitting loses no bytes. -/
theorem joinLines_splitLines (s : List Char) :
    joinLines (splitLines s).1 ++ (splitLines s).2 = s := by
  induction s with
  | nil => rfl
  | cons c rest ih =>
    by_cases hc : c = '\n'
    · subst hc
      simp only [splitLines, if_pos rfl, joinLines, List.map_cons, List.flatten_cons,
        List.nil_append, List.cons_append]
      exact congrArg _ ih
    · simp only [splitLines, if_neg hc]
      cases h : (splitLines rest).1 with
      | nil =>
        rw [h] at ih
        simp only [joinLines, List.map_nil, List.flatten_nil, List.nil_append] at ih ⊢
        exact congrArg _ ih
      | cons l ls =>
        rw [h] at ih
        simp only [joinLines, List.map_cons, List.flatten_cons, List.cons_append,
          List.append_assoc] at ih ⊢
        exact congrArg _ ih

/-- Looking up the freshly inserted key returns the inserted sink. -/
theorem mapLookup_mapInsert_self (k : String) (v : Sink) (m : List (String × Sink)) :
    mapLookup k (mapInsert k v m) = some v := by
  simp [mapInsert, mapLookup]

/-- A deleted key is absent. -/
theorem mapLookup_mapErase_self (k : String) (m : List (String × Sink)) :
    mapLookup k (mapErase k m) = none := by
  induction m with
  | nil => rfl
  | cons e rest ih =>
    by_cases he : e.1 = k
    · simpa [mapErase, he] using ih
    · simpa [mapErase, mapLookup, he] using ih

/-- Deleting one key leaves every other key's binding unchanged. -/
theorem mapLookup_mapErase_ne (k k' : String) (m : List (String × Sink))
    (h : k' ≠ k) : mapLookup k' (mapErase k m) = mapLookup k' m := by
  induction m with
  | nil => rfl
  | cons e rest ih =>
    by_cases he : e.1 = k
    · rw [show mapErase k (e :: rest) = mapErase k rest by
        simp [mapErase, List.filter_cons, he]]
      rw [ih]
      have hne : ¬ e.1 = k' := fun hk => h (hk.symm.trans he)
      simp [mapLookup, hne]
    · rw [show mapErase k (e :: rest) = e :: mapErase k rest by
        simp [mapErase, List.filter_cons, he]]
      by_cases he' : e.1 = k'
      · simp [mapLookup, he']
      · simp [mapLookup, he', ih]

/-- Lookup after insertion: the inserted key maps to the new sink, other
keys are unchanged. -/
theorem mapLookup_mapInsert (k nme : String) (v : Sink) (m : List (String × Sink)) :
    mapLookup k (mapInsert nme v m) = if nme = k then some v else mapLookup k m := by
  by_cases h : nme = k
  · subst h; simp [mapLookup_mapInsert_self]
  · simp only [mapInsert, mapLookup, h, if_neg h]
    exact mapLookup_mapErase_ne nme k m (fun hk => h hk.symm)

/-- `PackageBuildFinished` leaves the registry equal to the old registry
with the unit's key deleted, in both the present and the absent branch. -/
theorem packageBuildFinished_writer (r : ConsoleReporter) (pkg : Package)
    (err : Option String) :
    (packageBuildFinished r pkg err).1.writer = mapErase pkg.fullName r.writer := by
  rcases hm : mapLookup pkg.fullName r.writer with _ | out <;>
    simp [packageBuildFinished, hm]

/-- When the unit has no registered writer, `PackageBuildLog` runs its
lazy-creation branch: it writes through a fresh prefix writer and stores
the post-write writer under the unit's full name. -/
theorem packageBuildLog_of_none (r : ConsoleReporter) (pkg : Package)
    (isErr : Bool) (buf : List Char)
    (h : mapLookup pkg.fullName r.writer = none) :
    packageBuildLog r pkg isErr buf
      = (⟨mapInsert pkg.fullName (sinkWrite ⟨ getRunPrefix pkg, []⟩ buf).1 r.writer⟩,
         (sinkWrite ⟨ getRunPrefix pkg, []⟩ buf).2) := by
  simp [packageBuildLog, h]

/-! ### Claim theorems -/

/-- C1: the insert mutations of `PackageBuildStarted` and
`PackageBuildLog` do take the exclusive lock and the lookups take at
least the shared lock, but the removal performed by
`PackageBuildFinished` (`delete(r.writer, nme)`, reporter.go:147) occurs
after the read lock is released with no lock held, for every unit and
every call — refuting the claim that every registry mutation holds the
write lock. -/
theorem c1_finished_delete_without_lock (nme : String) (present : Bool) :
    mutationsLocked false (packageBuildStartedTrace nme) = true ∧
    mutationsLocked false (packageBuildLogTrace nme present) = true ∧
    lookupsLocked false false (packageBuildLogTrace nme present) = true ∧
    lookupsLocked false false (packageBuildFinishedTrace nme) = true ∧
    Action.mapDelete nme ∈ packageBuildFinishedTrace nme ∧
    mutationsLocked false (packageBuildFinishedTrace nme) = false := by
  cases present <;>
    simp [packageBuildStartedTrace, packageBuildLogTrace,
      packageBuildFinishedTrace, mutationsLocked, lookupsLocked]

/-- C6: the composite reporter with no children performs no effect of
its own, and with children `a :: rest` each of the five events is
forwarded to `a` first, with unchanged arguments, and then to `rest` in
order. -/
theorem c6_composite_forwards_in_order {σ : Type} (a : Reporter σ)
    (rest : List (Reporter σ)) (s : σ) (pkg : Package)
    (status : List (Package × PackageBuildStatus)) (err : Option String)
    (isErr : Bool) (buf : List Char) :
    (compositeBuildStarted ([] : List (Reporter σ)) s pkg status = s
      ∧ compositeBuildFinished ([] : List (Reporter σ)) s pkg err = s
      ∧ compositePackageBuildStarted ([] : List (Reporter σ)) s pkg = s
      ∧ compositePackageBuildLog ([] : List (Reporter σ)) s pkg isErr buf = s
      ∧ compositePackageBuildFinished ([] : List (Reporter σ)) s pkg err = s)
    ∧ (compositeBuildStarted (a :: rest) s pkg status
        = compositeBuildStarted rest (a.buildStarted s pkg status) pkg status
      ∧ compositeBuildFinished (a :: rest) s pkg err
        = compositeBuildFinished rest (a.buildFinished s pkg err) pkg err
      ∧ compositePackageBuildStarted (a :: rest) s pkg
        = compositePackageBuildStarted rest (a.packageBuildStarted s pkg) pkg
      ∧ compositePackageBuildLog (a :: rest) s pkg isErr buf
        = compositePackageBuildLog rest (a.packageBuildLog s pkg isErr buf) pkg isErr buf
      ∧ compositePackageBuildFinished (a :: rest) s pkg err
        = compositePackageBuildFinished rest (a.packageBuildFinished s pkg err) pkg err) :=
  ⟨⟨rfl, rfl, rfl, rfl, rfl⟩, rfl, rfl, rfl, rfl, rfl⟩

/-- C8: the success summaries are misspelled in the source
("build succeded" / "package build succeded"), so the rendered text is
not exactly "build succeeded" / "package build succeeded" as claimed;
the failure summaries do render "build failed" with a "Reason:" line. -/
theorem c8_summary_misspelled :
    buildFinishedMsg none = "\n" ++ greenSeq ++ "build succeded" ++ resetSeq ++ "\n" ∧
    packageBuildFinishedMsg none = greenSeq ++ "package build succeded" ++ resetSeq ++ "\n" ∧
    ¬ ("build succeeded".data <:+: (buildFinishedMsg none).data) ∧
    ("build succeded".data <:+: (buildFinishedMsg none).data) ∧
    ¬ ("package build succeeded".data <:+: (packageBuildFinishedMsg none).data) ∧
    ("package build succeded".data <:+: (packageBuildFinishedMsg none).data) ∧
    ("build failed".data <:+: (buildFinishedMsg (some "boom")).data) ∧
    ("Reason:".data <:+: (buildFinishedMsg (some "boom")).data) ∧
    ("package build failed".data <:+: (packageBuildFinishedMsg (some "boom")).data) := by
  refine ⟨rfl, rfl, ?_, ?_, ?_, ?_, ?_, ?_, ?_⟩ <;> decide

/-- C7: when `Version()` fails, the status-table line of `BuildStarted`
and the started line of `PackageBuildStarted` both render with the
literal placeholder "unknown" substituted for the version — rendering is
exactly as for a unit whose version lookup returns "unknown" — and both
renderers are total, raising no error. -/
theorem c7_version_failure_renders_unknown (pkg : Package)
    (h : pkg.version = none) (st : PackageBuildStatus) (r : ConsoleReporter) :
    versionOrUnknown pkg = "unknown" ∧
    buildStartedLine pkg st
      = buildStartedLine ⟨pkg.fullName, some "unknown"⟩ st ∧
    packageBuildStarted r pkg
      = packageBuildStarted r ⟨pkg.fullName, some "unknown"⟩ ∧
    ("(version unknown)".data <:+: (buildStartedLine pkg st).data) ∧
    ("(version unknown)".data <:+: (packageBuildStartedMsg (versionOrUnknown pkg)).data) := by
  obtain ⟨nme, ver⟩ := pkg
  cases h
  have hv : versionOrUnknown ⟨nme, none⟩ = "unknown" := rfl
  refine ⟨rfl, ?_, rfl, ?_, ?_⟩
  · cases st <;> rfl
  · have hmerge : "(version unknown)".data
        = "(version ".data ++ "unknown".data ++ ")".data := by decide
    cases st
    · refine ⟨(greenSprint ("📦\tcached") ++ "\t" ++ nme ++ "\t" ++ graySeq).data,
        (resetSeq ++ "\n").data, ?_⟩
      simp [buildStartedLine, versionOrUnknown, grayRender, hmerge]
    · refine ⟨(yellowSprint ("🔧\tbuild") ++ "\t" ++ nme ++ "\t" ++ graySeq).data,
        (resetSeq ++ "\n").data, ?_⟩
      simp [buildStartedLine, versionOrUnknown, grayRender, hmerge]
  · rw [hv]; decide

/-- C7 witness: the theorem applied to a concrete unit whose version
lookup fails. -/
theorem c7_version_failure_witness :
    versionOrUnknown ⟨"comp:pkg", none⟩ = "unknown" ∧
    buildStartedLine ⟨"comp:pkg", none⟩ PackageBuildStatus.packageBuilt
      = buildStartedLine ⟨"comp:pkg", some "unknown"⟩ PackageBuildStatus.packageBuilt ∧
    packageBuildStarted ⟨[]⟩ ⟨"comp:pkg", none⟩
      = packageBuildStarted ⟨[]⟩ ⟨"comp:pkg", some "unknown"⟩ ∧
    ("(version unknown)".data
      <:+: (buildStartedLine ⟨"comp:pkg", none⟩ PackageBuildStatus.packageBuilt).data) ∧
    ("(version unknown)".data
      <:+: (packageBuildStartedMsg (versionOrUnknown ⟨"comp:pkg", none⟩)).data) :=
  c7_version_failure_renders_unknown ⟨"comp:pkg", none⟩ rfl
    PackageBuildStatus.packageBuilt ⟨[]⟩

/-- C9: `PackageBuildLog` ignores the `isErr` flag entirely: for every
registry state, unit and buffer, both flag values yield the same new
state and the same emitted bytes. -/
theorem c9_packageBuildLog_ignores_isErr (r : ConsoleReporter)
    (pkg : Package) (buf : List Char) :
    packageBuildLog r pkg true buf = packageBuildLog r pkg false buf := rfl

/-- C10: `PackageBuildFinished` never inserts: in the absent-sink branch
the lazily created fallback writer is not stored, and in both branches
the resulting registry is exactly the old registry with the unit's key
deleted — the unit's key is gone and every other key's binding is
untouched. -/
theorem c10_finished_only_removes (r : ConsoleReporter) (pkg : Package)
    (err : Option String) :
    (packageBuildFinished r pkg err).1.writer = mapErase pkg.fullName r.writer ∧
    mapLookup pkg.fullName (packageBuildFinished r pkg err).1.writer = none ∧
    ∀ k, k ≠ pkg.fullName →
      mapLookup k (packageBuildFinished r pkg err).1.writer = mapLookup k r.writer := by
  refine ⟨packageBuildFinished_writer r pkg err, ?_, ?_⟩
  · rw [packageBuildFinished_writer]
    exact mapLookup_mapErase_self _ _
  · intro k hk
    rw [packageBuildFinished_writer]
    exact mapLookup_mapErase_ne _ _ _ hk

/-- C10 witness: the theorem applied to a registry holding sinks for
"a" and "b", finishing unit "a" and checking key "b". -/
theorem c10_finished_only_removes_witness :
    (packageBuildFinished ⟨[("a", ⟨"pa", []⟩), ("b", ⟨"pb", []⟩)]⟩ ⟨"a", some "v"⟩ none).1.writer
      = mapErase "a" [("a", ⟨"pa", []⟩), ("b", ⟨"pb", []⟩)] ∧
    mapLookup "a"
      (packageBuildFinished ⟨[("a", ⟨"pa", []⟩), ("b", ⟨"pb", []⟩)]⟩ ⟨"a", some "v"⟩ none).1.writer
      = none ∧
    mapLookup "b"
      (packageBuildFinished ⟨[("a", ⟨"pa", []⟩), ("b", ⟨"pb", []⟩)]⟩ ⟨"a", some "v"⟩ none).1.writer
      = mapLookup "b" [("a", ⟨"pa", []⟩), ("b", ⟨"pb", []⟩)] :=
  ⟨(c10_finished_only_removes ⟨[("a", ⟨"pa", []⟩), ("b", ⟨"pb", []⟩)]⟩ ⟨"a", some "v"⟩ none).1,
   (c10_finished_only_removes ⟨[("a", ⟨"pa", []⟩), ("b", ⟨"pb", []⟩)]⟩ ⟨"a", some "v"⟩ none).2.1,
   (c10_finished_only_removes ⟨[("a", ⟨"pa", []⟩), ("b", ⟨"pb", []⟩)]⟩ ⟨"a", some "v"⟩ none).2.2
     "b" (by decide)⟩

/-- C5: after `PackageBuildFinished` the unit's entry is absent, so a
subsequent `PackageBuildLog` for the same full name takes the
lazy-creation branch and builds a fresh sink (empty buffer, fresh
prefix) instead of reusing the old one; moreover neither
`PackageBuildStarted` nor `PackageBuildLog` ever removes an entry, so
an entry is destroyed only by the finished event. -/
theorem c5_finished_frees_entry (r : ConsoleReporter) (pkg : Package)
    (err : Option String) (isErr : Bool) (buf : List Char) :
    mapLookup pkg.fullName (packageBuildFinished r pkg err).1.writer = none ∧
    packageBuildLog (packageBuildFinished r pkg err).1 pkg isErr buf
      = (⟨mapInsert pkg.fullName (sinkWrite ⟨ getRunPrefix pkg, []⟩ buf).1
            (packageBuildFinished r pkg err).1.writer⟩,
         (sinkWrite ⟨ getRunPrefix pkg, []⟩ buf).2) ∧
    (∀ k, mapLookup k r.writer ≠ none →
      mapLookup k (packageBuildStarted r pkg).1.writer ≠ none ∧
      mapLookup k (packageBuildLog r pkg isErr buf).1.writer ≠ none) := by
  have habs : mapLookup pkg.fullName (packageBuildFinished r pkg err).1.writer = none := by
    rw [packageBuildFinished_writer]
    exact mapLookup_mapErase_self _ _
  refine ⟨habs, packageBuildLog_of_none _ _ _ _ habs, ?_⟩
  intro k hk
  constructor
  · show mapLookup k (mapInsert pkg.fullName _ r.writer) ≠ none
    rw [mapLookup_mapInsert]
    by_cases h : pkg.fullName = k
    · simp [h]
    · simpa [h] using hk
  · rcases hm : mapLookup pkg.fullName r.writer with _ | out <;>
      · show mapLookup k _ ≠ none
        simp only [packageBuildLog, hm]
        rw [mapLookup_mapInsert]
        by_cases h : pkg.fullName = k
        · simp [h]
        · simpa [h] using hk

/-- C5 witness: finish unit "a", then log for "a" again; also check that
the started/log calls preserve the entry for "a". -/
theorem c5_finished_frees_entry_witness :
    mapLookup "a"
      (packageBuildFinished ⟨[("a", ⟨"pa", ['x']⟩)]⟩ ⟨"a", some "v"⟩ none).1.writer = none ∧
    packageBuildLog (packageBuildFinished ⟨[("a", ⟨"pa", ['x']⟩)]⟩ ⟨"a", some "v"⟩ none).1
        ⟨"a", some "v"⟩ false ['o', 'k', '\n']
      = (⟨mapInsert "a" (sinkWrite ⟨ getRunPrefix ⟨"a", some "v"⟩, []⟩ ['o', 'k', '\n']).1
            (packageBuildFinished ⟨[("a", ⟨"pa", ['x']⟩)]⟩ ⟨"a", some "v"⟩ none).1.writer⟩,
         (sinkWrite ⟨ getRunPrefix ⟨"a", some "v"⟩, []⟩ ['o', 'k', '\n']).2) ∧
    (mapLookup "a"
        (packageBuildStarted ⟨[("a", ⟨"pa", ['x']⟩)]⟩ ⟨"a", some "v"⟩).1.writer ≠ none ∧
      mapLookup "a"
        (packageBuildLog ⟨[("a", ⟨"pa", ['x']⟩)]⟩ ⟨"a", some "v"⟩ false ['o', 'k', '\n']).1.writer
        ≠ none) :=
  ⟨(c5_finished_frees_entry ⟨[("a", ⟨"pa", ['x']⟩)]⟩ ⟨"a", some "v"⟩ none false
      ['o', 'k', '\n']).1,
   (c5_finished_frees_entry ⟨[("a", ⟨"pa", ['x']⟩)]⟩ ⟨"a", some "v"⟩ none false
      ['o', 'k', '\n']).2.1,
   (c5_finished_frees_entry ⟨[("a", ⟨"pa", ['x']⟩)]⟩ ⟨"a", some "v"⟩ none false
      ['o', 'k', '\n']).2.2 "a" (by decide)⟩

/-- C4: a `PackageBuildLog` call for a unit with no registered sink does
not fail: it lazily creates a sink, stores it in the registry under the
unit's full name, and writes the buffer through it — the emitted bytes
are exactly the completed lines of the buffer, each wrapped with the
unit's run prefix (which contains the literal `[<full name>] `), and
reassembling those lines together with the sink's buffered remainder
recovers the buffer byte-for-byte. -/
theorem c4_lazy_log_no_bytes_dropped (r : ConsoleReporter) (pkg : Package)
    (isErr : Bool) (buf : List Char)
    (h : mapLookup pkg.fullName r.writer = none) :
    (packageBuildLog r pkg isErr buf).2
        = emitLines ( getRunPrefix pkg) (splitLines buf).1 ∧
    joinLines (splitLines buf).1 ++ (splitLines buf).2 = buf ∧
    mapLookup pkg.fullName (packageBuildLog r pkg isErr buf).1.writer
        = some ⟨ getRunPrefix pkg, (splitLines buf).2⟩ ∧
    (∃ a b, getRunPrefix pkg = a ++ ("[" ++ pkg.fullName ++ "] ") ++ b) := by
  rw [packageBuildLog_of_none r pkg isErr buf h]
  refine ⟨?_, joinLines_splitLines buf, ?_, ⟨graySeq, resetSeq, rfl⟩⟩
  · show (sinkWrite ⟨ getRunPrefix pkg, []⟩ buf).2 = _
    simp [sinkWrite]
  · show mapLookup _ (mapInsert _ (sinkWrite ⟨ getRunPrefix pkg, []⟩ buf).1 _) = _
    rw [mapLookup_mapInsert_self]
    simp [sinkWrite]

/-- C4 witness: the theorem applied to an empty registry and the buffer
"ok\npa" (one complete line plus an incomplete remainder). -/
theorem c4_lazy_log_witness :
    (packageBuildLog ⟨[]⟩ ⟨"comp:pkg", some "v"⟩ false ['o', 'k', '\n', 'p', 'a']).2
        = emitLines ( getRunPrefix ⟨"comp:pkg", some "v"⟩)
            (splitLines ['o', 'k', '\n', 'p', 'a']).1 ∧
    joinLines (splitLines ['o', 'k', '\n', 'p', 'a']).1
        ++ (splitLines ['o', 'k', '\n', 'p', 'a']).2 = ['o', 'k', '\n', 'p', 'a'] ∧
    mapLookup "comp:pkg"
        (packageBuildLog ⟨[]⟩ ⟨"comp:pkg", some "v"⟩ false ['o', 'k', '\n', 'p', 'a']).1.writer
        = some ⟨ getRunPrefix ⟨"comp:pkg", some "v"⟩,
            (splitLines ['o', 'k', '\n', 'p', 'a']).2⟩ ∧
    (∃ a b, getRunPrefix ⟨"comp:pkg", some "v"⟩
        = a ++ ("[" ++ Package.fullName ⟨"comp:pkg", some "v"⟩ ++ "] ") ++ b) :=
  c4_lazy_log_no_bytes_dropped ⟨[]⟩ ⟨"comp:pkg", some "v"⟩ false
    ['o', 'k', '\n', 'p', 'a'] rfl

/-- C3: `BuildStarted` renders exactly one line per entry of the status
mapping (as a permutation of the per-entry renderings), writes them
sorted lexicographically, produces the same output for any iteration
order of the mapping, and tags `Built` entries "cached" and `Pending`
entries "build". -/
theorem c3_buildStarted_sorted_one_line_per_key
    (status status' : List (Package × PackageBuildStatus))
    (hperm : status.Perm status') :
    (buildStartedLines status).Perm
      (status.map (fun e => buildStartedLine e.1 e.2)) ∧
    List.Sorted (· ≤ ·) (buildStartedLines status) ∧
    (buildStartedLines status).length = status.length ∧
    buildStartedLines status = buildStartedLines status' ∧
    ∀ e ∈ status,
      (e.2 = PackageBuildStatus.packageBuilt →
        "cached".data <:+: (buildStartedLine e.1 e.2).data) ∧
      (e.2 = PackageBuildStatus.packageNotBuiltYet →
        "build".data <:+: (buildStartedLine e.1 e.2).data) := by
  refine ⟨List.perm_insertionSort _ _, List.sorted_insertionSort _ _, ?_, ?_, ?_⟩
  · simp [buildStartedLines]
  · exact List.eq_of_perm_of_sorted
      ((List.perm_insertionSort _ _).trans
        ((hperm.map _).trans (List.perm_insertionSort _ _).symm))
      (List.sorted_insertionSort _ _) (List.sorted_insertionSort _ _)
  · rintro ⟨p, st⟩ _
    constructor
    · rintro rfl
      have hmerge : "📦\tcached".data = "📦\t".data ++ "cached".data := by decide
      refine ⟨(greenSeq ++ "📦\t").data,
        (resetSeq ++ "\t" ++ p.fullName ++ "\t"
          ++ grayRender ("(version " ++ versionOrUnknown p ++ ")") ++ "\n").data, ?_⟩
      simp [buildStartedLine, greenSprint, hmerge]
    · rintro rfl
      have hmerge : "🔧\tbuild".data = "🔧\t".data ++ "build".data := by decide
      refine ⟨(yellowSeq ++ "🔧\t").data,
        (resetSeq ++ "\t" ++ p.fullName ++ "\t"
          ++ grayRender ("(version " ++ versionOrUnknown p ++ ")") ++ "\n").data, ?_⟩
      simp [buildStartedLine, yellowSprint, hmerge]

/-- C3 witness: two concrete entries in the two iteration orders render
identically. -/
theorem c3_buildStarted_sorted_witness :
    buildStartedLines
        [(⟨"x", some "1"⟩, PackageBuildStatus.packageBuilt),
         (⟨"y", none⟩, PackageBuildStatus.packageNotBuiltYet)]
      = buildStartedLines
        [(⟨"y", none⟩, PackageBuildStatus.packageNotBuiltYet),
         (⟨"x", some "1"⟩, PackageBuildStatus.packageBuilt)] :=
  (c3_buildStarted_sorted_one_line_per_key
    [(⟨"x", some "1"⟩, PackageBuildStatus.packageBuilt),
     (⟨"y", none⟩, PackageBuildStatus.packageNotBuiltYet)]
    [(⟨"y", none⟩, PackageBuildStatus.packageNotBuiltYet),
     (⟨"x", some "1"⟩, PackageBuildStatus.packageBuilt)]
    (by decide)).2.2.2.1

end Leeway
